import Mathlib

/-!
# Shallow embedding of the isotp-rs ISO 15765-2 (ISO-TP) core

This file embeds the frame codec, segmenter, reassembler and the pure parts of
the session engine of the `isotp-rs` crate, and proves properties of them.

Conventions of the embedding:
* Rust byte buffers (`Vec<u8>`, `&[u8]`) are `List Nat`; a byte is a `Nat`
  that is `< 256` wherever a theorem needs it (u8 values are < 256 by type
  in the source).
* Rust machine-integer bit operations (`&`, `|`, `<<`, `>>`) are `Nat.land`,
  `Nat.lor`, `Nat.shiftLeft`, `Nat.shiftRight`; `u32` truncation
  (`x & 0xFFFFFFFF`) is kept as `Nat.land x 0xFFFFFFFF`.
* Fallible Rust functions returning `Result<T, Error>` become
  `Except Error T`.
* Methods mutating `&mut self` are explicit state passing: they return the
  new state (paired with the `Result` when there is one).
* The build is the classical-CAN configuration (`can-fd` feature disabled),
  so the MTU is 8 bytes, matching the constants the claims cite.
-/

/-! ## Constants (src/can/constant.rs and src/constant.rs) -/

/-- `ISO_TP_MAX_LENGTH_2004` from src/can/constant.rs. -/
def ISO_TP_MAX_LENGTH_2004 : Nat := 0xFFF

/-- `ISO_TP_MAX_LENGTH_2016` from src/can/constant.rs. -/
def ISO_TP_MAX_LENGTH_2016 : Nat := 0xFFFFFFFF

/-- `CAN_FRAME_MAX_SIZE` from src/can/constant.rs. -/
def CAN_FRAME_MAX_SIZE : Nat := 8

/-- `DEFAULT_PADDING` from src/can/constant.rs. -/
def DEFAULT_PADDING : Nat := 0xAA

/-- `SINGLE_FRAME_SIZE_2004` (non `can-fd`): `CAN_FRAME_MAX_SIZE - 1`. -/
def SINGLE_FRAME_SIZE_2004 : Nat := CAN_FRAME_MAX_SIZE - 1

/-- `SINGLE_FRAME_SIZE_2016` (non `can-fd`): `CAN_FRAME_MAX_SIZE - 2`. -/
def SINGLE_FRAME_SIZE_2016 : Nat := CAN_FRAME_MAX_SIZE - 2

/-- `FIRST_FRAME_SIZE_2004` (non `can-fd`): `CAN_FRAME_MAX_SIZE - 2`. -/
def FIRST_FRAME_SIZE_2004 : Nat := CAN_FRAME_MAX_SIZE - 2

/-- `FIRST_FRAME_SIZE_2016` (non `can-fd`): `CAN_FRAME_MAX_SIZE - 5`. -/
def FIRST_FRAME_SIZE_2016 : Nat := CAN_FRAME_MAX_SIZE - 5

/-- `CONSECUTIVE_FRAME_SIZE` (non `can-fd`): `CAN_FRAME_MAX_SIZE - 1`. -/
def CONSECUTIVE_FRAME_SIZE : Nat := CAN_FRAME_MAX_SIZE - 1

/-- `CONSECUTIVE_SEQUENCE_START` from src/constant.rs. -/
def CONSECUTIVE_SEQUENCE_START : Nat := 0x01

/-- `MAX_ST_MIN` from src/constant.rs (127 ms). -/
def MAX_ST_MIN : Nat := 0x7F

/-- `P2_STAR_ISO14229` from src/constant.rs (ms). -/
def P2_STAR_ISO14229 : Nat := 5000

/-- `TIMEOUT_AS_ISO15765_2` from src/constant.rs; its doc comment says
"Default value for Timeout As in µs". -/
def TIMEOUT_AS_ISO15765_2 : Nat := 1000 * 1000

/-- `TIMEOUT_CR_ISO15765_2` from src/constant.rs; its doc comment says
"Default value for Timeout Cr in µs". -/
def TIMEOUT_CR_ISO15765_2 : Nat := 1000 * 1000

/-- `ST_MIN_ISO15765_2` from src/constant.rs. -/
def ST_MIN_ISO15765_2 : Nat := 10

/-! ## Error type (src/error.rs)

The Rust `Error` enum.  `String`-typed payloads built with `format!` in the
source are reproduced with string concatenation; `&'static str` payloads are
`String`. -/

deriving instance DecidableEq for Except

/-- The crate's `Error` enum (src/error.rs). -/
inductive Error where
  | DeviceError
  | EmptyPdu
  | InvalidPdu (data : List Nat)
  | InvalidParam (msg : String)
  | InvalidDataLength (actual expect : Nat)
  | LengthOutOfRange (length : Nat)
  | InvalidStMin (st_min : Nat)
  | InvalidSequence (expect actual : Nat)
  | MixFramesError
  | Timeout (value : Nat) (unit : String)
  | ConvertError (src target : String)
  | OverloadFlow
  | ContextError (msg : String)
deriving DecidableEq

/-! ## Flow control state and context (src/lib.rs) -/

/-- `FlowControlState` from src/lib.rs. -/
inductive FlowControlState where
  | Continues
  | Wait
  | Overload
deriving DecidableEq

/-- `FlowControlState as u8` (`Continues = 0x00`, `Wait = 0x01`,
`Overload = 0x02`). -/
def FlowControlState.toNat : FlowControlState → Nat
  | .Continues => 0x00
  | .Wait => 0x01
  | .Overload => 0x02

/-- `FlowControlState::try_from(u8)` from src/lib.rs; the unknown-value error
message is `format!("\x60state\x60 ({})", v)`. -/
def FlowControlState.tryFrom (value : Nat) : Except Error FlowControlState :=
  if value = 0x00 then .ok .Continues
  else if value = 0x01 then .ok .Wait
  else if value = 0x02 then .ok .Overload
  else .error (.InvalidParam ("\x60state\x60 (" ++ toString value ++ ")"))

/-- `FlowControlContext` from src/lib.rs. -/
structure FlowControlContext where
  state : FlowControlState
  block_size : Nat
  st_min : Nat
deriving DecidableEq

/-- `FlowControlContext::new` from src/lib.rs: an `st_min` byte in the
reserved ranges `0x80..=0xF0` or `0xFA..=0xFF` is replaced by `MAX_ST_MIN`. -/
def FlowControlContext.new (state : FlowControlState) (block_size st_min : Nat) :
    FlowControlContext :=
  if (0x80 ≤ st_min ∧ st_min ≤ 0xF0) ∨ (0xFA ≤ st_min ∧ st_min ≤ 0xFF) then
    { state := state, block_size := block_size, st_min := MAX_ST_MIN }
  else
    { state := state, block_size := block_size, st_min := st_min }

/-- `FlowControlContext::st_min_us` from src/lib.rs, µs.  The reserved
ranges `0x80..=0xF0` and `0xFA..=0xFF` hit a `panic!` in the source
("should not enter"); the embedding returns `none` there. -/
def FlowControlContext.st_min_us (ctx : FlowControlContext) : Option Nat :=
  if ctx.st_min = 0x00 then some (1000 * 10)
  else if ctx.st_min ≤ 0x7F then some (1000 * ctx.st_min)
  else if (0x80 ≤ ctx.st_min ∧ ctx.st_min ≤ 0xF0) ∨ (0xFA ≤ ctx.st_min ∧ ctx.st_min ≤ 0xFF) then
    none
  else some (100 * Nat.land ctx.st_min 0x0F)

/-! ## The frame type (src/can.rs) -/

/-- `CanIsoTpFrame` from src/can.rs. -/
inductive CanIsoTpFrame where
  | SingleFrame (data : List Nat)
  | FirstFrame (length : Nat) (data : List Nat)
  | ConsecutiveFrame (sequence : Nat) (data : List Nat)
  | FlowControlFrame (context : FlowControlContext)
deriving DecidableEq

/-- `Vec::resize(n, pad)`: truncate to `n` elements or extend with `pad`. -/
def listResize (l : List Nat) (n : Nat) (pad : Nat) : List Nat :=
  l.take n ++ List.replicate (n - l.length) pad

/-- `u32::to_be_bytes` for a value `< 2^32`. -/
def u32ToBeBytes (v : Nat) : List Nat :=
  [v / 2 ^ 24 % 256, v / 2 ^ 16 % 256, v / 2 ^ 8 % 256, v % 256]

/-- `u32::from_be_bytes([a, b, c, d])`. -/
def u32FromBeBytes (a b c d : Nat) : Nat :=
  ((a * 256 + b) * 256 + c) * 256 + d

/-! ## 2016-dialect codec helpers (src/can/utils/std2016.rs, non `can-fd`) -/

/-- `decode_single` from src/can/utils/std2016.rs.  Rust `&data[1..=n]` is
`(data.drop 1).take n`, `&data[2..=n]` is `(data.drop 2).take (n - 1)`; the
escape branch with `pdu_len = 0` panics in Rust on the slice `2..=0` and is
modelled as the empty slice (no claim exercises it). -/
def decode_single (data : List Nat) (byte0 : Nat) (length : Nat) :
    Except Error CanIsoTpFrame :=
  if CAN_FRAME_MAX_SIZE < length then .error (.LengthOutOfRange length)
  else
    let pdu_len := Nat.land byte0 0x0F
    if 0 < pdu_len then
      if length < pdu_len + 1 then .error (.InvalidPdu data)
      else .ok (.SingleFrame ((data.drop 1).take pdu_len))
    else
      let pdu_len := data.getD 1 0
      if length < pdu_len + 2 then .error (.InvalidPdu data)
      else .ok (.SingleFrame ((data.drop 2).take (pdu_len - 1)))

/-- `decode_first` from src/can/utils/std2016.rs (non `can-fd`). -/
def decode_first (data : List Nat) (byte0 : Nat) (length : Nat) :
    Except Error CanIsoTpFrame :=
  if length ≠ CAN_FRAME_MAX_SIZE then
    .error (.InvalidDataLength length CAN_FRAME_MAX_SIZE)
  else
    let pdu_len := Nat.lor (Nat.shiftLeft (Nat.land byte0 0x0F) 8) (data.getD 1 0)
    if 0 < pdu_len then .ok (.FirstFrame pdu_len (data.drop 2))
    else
      .ok (.FirstFrame
        (u32FromBeBytes (data.getD 2 0) (data.getD 3 0) (data.getD 4 0) (data.getD 5 0))
        (data.drop 6))

/-- `encode_single` from src/can/utils/std2016.rs (non `can-fd`).
`length as u8` is `length % 256`. -/
def encode_single (data : List Nat) (padding : Option Nat) : List Nat :=
  let length := data.length
  if length ≤ SINGLE_FRAME_SIZE_2004 then
    listResize (Nat.lor 0x00 (length % 256) :: data) CAN_FRAME_MAX_SIZE
      (padding.getD DEFAULT_PADDING)
  else
    listResize (0x00 :: length % 256 :: data) CAN_FRAME_MAX_SIZE
      (padding.getD DEFAULT_PADDING)

/-- `encode_first` from src/can/utils/std2016.rs.  `length` is `u32`; the
condition in the source is `length & 0xFFFFFFFF > 0x7FF`. -/
def encode_first (length : Nat) (data : List Nat) : List Nat :=
  if 0x7FF < Nat.land length 0xFFFFFFFF then
    (0x10 :: u32ToBeBytes length) ++ data
  else
    let len_h := Nat.shiftRight (Nat.land length 0x0F00) 8
    let len_l := Nat.land length 0x00FF
    Nat.lor 0x10 len_h :: len_l :: data

/-! ## decode / encode (src/can.rs, `impl IsoTpFrame for CanIsoTpFrame`) -/

/-- `CanIsoTpFrame::decode` from src/can.rs.  The source first matches the
buffer length (`0`, `1..=2`, `3..`) and then dispatches on
`FrameType::try_from(byte0)`, i.e. on `byte0 & 0xF0`; the flow-control
branch reads the *state* from `data[1] & 0x7F` and passes `data[1]` as the
block size to `FlowControlContext::new`.  The unknown-nibble error message is
`format!("\x60frame type\x60({})", v)`. -/
def CanIsoTpFrame.decode (data : List Nat) : Except Error CanIsoTpFrame :=
  if data.length = 0 then .error .EmptyPdu
  else if data.length ≤ 2 then .error (.InvalidPdu data)
  else
    let byte0 := data.getD 0 0
    let ft := Nat.land byte0 0xF0
    if ft = 0x00 then decode_single data byte0 data.length
    else if ft = 0x10 then decode_first data byte0 data.length
    else if ft = 0x20 then
      .ok (.ConsecutiveFrame (Nat.land byte0 0x0F) (data.drop 1))
    else if ft = 0x30 then
      let data1 := data.getD 1 0
      match FlowControlState.tryFrom (Nat.land data1 0x7F) with
      | .ok state =>
        .ok (.FlowControlFrame (FlowControlContext.new state data1 (data.getD 2 0)))
      | .error e => .error e
    else .error (.InvalidParam ("\x60frame type\x60(" ++ toString ft ++ ")"))

/-- `CanIsoTpFrame::encode` from src/can.rs (non `can-fd`). -/
def CanIsoTpFrame.encode (frame : CanIsoTpFrame) (padding : Option Nat) : List Nat :=
  match frame with
  | .SingleFrame data => encode_single data padding
  | .FirstFrame length data => encode_first length data
  | .ConsecutiveFrame sequence data =>
    listResize (Nat.lor 0x20 sequence :: data) CAN_FRAME_MAX_SIZE
      (padding.getD DEFAULT_PADDING)
  | .FlowControlFrame context =>
    listResize (Nat.lor 0x30 context.state.toNat :: context.block_size :: context.st_min :: [])
      CAN_FRAME_MAX_SIZE (padding.getD DEFAULT_PADDING)

/-! ## Segmenter (src/can/utils.rs `parse`, and `from_data`) -/

/-- The consecutive-frame loop of `parse` in src/can/utils.rs, expressed on
the not-yet-consumed suffix `rest = data[offset..]` of the payload: the loop
guard `offset + CONSECUTIVE_FRAME_SIZE >= length` is `rest.length ≤
CONSECUTIVE_FRAME_SIZE`, and the sequence number wraps `0x0F → 0`. -/
def parseCFs (sequence : Nat) (rest : List Nat) : List CanIsoTpFrame :=
  if h : rest.length ≤ CONSECUTIVE_FRAME_SIZE then
    [.ConsecutiveFrame sequence rest]
  else
    .ConsecutiveFrame sequence (rest.take CONSECUTIVE_FRAME_SIZE) ::
      parseCFs (if 0x0F ≤ sequence then 0 else sequence + 1)
        (rest.drop CONSECUTIVE_FRAME_SIZE)
termination_by rest.length
decreasing_by
  simp only [List.length_drop]
  simp only [CONSECUTIVE_FRAME_SIZE, CAN_FRAME_MAX_SIZE] at *
  omega

/-- `parse::<FIRST_FRAME_SIZE>` from src/can/utils.rs, at the initial state
used by every caller (`offset = 0`): one `FirstFrame` carrying
`data[..FIRST_FRAME_SIZE]` followed by the consecutive-frame loop over the
remainder. -/
def parse (ffs : Nat) (sequence : Nat) (data : List Nat) (length : Nat) :
    List CanIsoTpFrame :=
  .FirstFrame length (data.take ffs) :: parseCFs sequence (data.drop ffs)

/-- `from_data` from src/can/utils/std2016.rs: single frame up to
`SINGLE_FRAME_SIZE_2004` bytes, then the 12-bit-length first-frame form up to
`ISO_TP_MAX_LENGTH_2004`, then the 32-bit escape form up to
`ISO_TP_MAX_LENGTH_2016`. -/
def from_data16 (data : List Nat) : Except Error (List CanIsoTpFrame) :=
  let length := data.length
  if length = 0 then .error .EmptyPdu
  else if length ≤ SINGLE_FRAME_SIZE_2004 then .ok [.SingleFrame data]
  else if length ≤ ISO_TP_MAX_LENGTH_2004 then
    .ok (parse FIRST_FRAME_SIZE_2004 1 data length)
  else if length ≤ ISO_TP_MAX_LENGTH_2016 then
    .ok (parse FIRST_FRAME_SIZE_2016 1 data length)
  else .error (.LengthOutOfRange length)

/-- `from_data` from src/can/utils/std2004.rs: single frame up to
`CONSECUTIVE_FRAME_SIZE` bytes, multi-frame up to `ISO_TP_MAX_LENGTH_2004`. -/
def from_data04 (data : List Nat) : Except Error (List CanIsoTpFrame) :=
  let length := data.length
  if length = 0 then .error .EmptyPdu
  else if length ≤ CONSECUTIVE_FRAME_SIZE then .ok [.SingleFrame data]
  else if length ≤ ISO_TP_MAX_LENGTH_2004 then
    .ok (parse FIRST_FRAME_SIZE_2004 1 data length)
  else .error (.LengthOutOfRange length)

/-! ## Reassembly context (src/can/isotp/context.rs) -/

/-- `IsoTpEvent` from src/lib.rs. -/
inductive IsoTpEvent where
  | Wait
  | FirstFrameReceived
  | DataReceived (data : List Nat)
  | ErrorOccurred (e : Error)
deriving DecidableEq

/-- `FlowCtrl` from src/can/isotp/context.rs (`st_min` in µs). -/
structure FlowCtrl where
  st_min : Nat
  block_size : Nat
deriving DecidableEq

/-- `Consecutive` from src/can/isotp/context.rs. -/
structure Consecutive where
  sequence : Option Nat
  length : Option Nat
  buffer : List Nat
deriving DecidableEq

/-- `IsoTpContext` from src/can/isotp/context.rs. -/
structure IsoTpContext where
  flow_ctrl : Option FlowCtrl := none
  consecutive : Consecutive := ⟨none, none, []⟩
deriving DecidableEq

/-- `IsoTpContext::reset`. -/
def IsoTpContext.reset (_ctx : IsoTpContext) : IsoTpContext :=
  { flow_ctrl := none, consecutive := ⟨none, none, []⟩ }

/-- `IsoTpContext::update_consecutive`: store the expected length and append
the first frame's payload to the buffer. -/
def IsoTpContext.update_consecutive (ctx : IsoTpContext) (length : Nat)
    (data : List Nat) : IsoTpContext :=
  { ctx with
    consecutive :=
      { ctx.consecutive with
        length := some length
        buffer := ctx.consecutive.buffer ++ data } }

/-- The expected-sequence computation inside
`IsoTpContext::append_consecutive`: a stored sequence `v ≤ 0x0E` advances to
`v + 1`, `0x0F` wraps to `0`, and an absent sequence (right after a
`FirstFrame`) expects `CONSECUTIVE_SEQUENCE_START`. -/
def nextSequence : Option Nat → Nat
  | some v => if v ≤ 0x0E then v + 1 else 0
  | none => CONSECUTIVE_SEQUENCE_START

/-- `IsoTpContext::append_consecutive` from src/can/isotp/context.rs.  The
Rust method mutates `&mut self` and returns a `Result`; the embedding returns
the updated context together with the result.  Faithful details: the stored
sequence advances to the expected value *before* the mismatch check; on
completion the buffer is resized to the expected length (`resize(n, 0)`) and
the event carries a clone of it — the buffer is *not* cleared. -/
def IsoTpContext.append_consecutive (ctx : IsoTpContext) (sequence : Nat)
    (data : List Nat) : IsoTpContext × Except Error IsoTpEvent :=
  match ctx.consecutive.length with
  | none => (ctx, .error .MixFramesError)
  | some target_len =>
    let target := nextSequence ctx.consecutive.sequence
    let ctx := { ctx with consecutive := { ctx.consecutive with sequence := some target } }
    if sequence ≠ target then (ctx, .error (.InvalidSequence target sequence))
    else
      let buffer := ctx.consecutive.buffer ++ data
      if target_len ≤ buffer.length then
        let final := listResize buffer target_len 0
        ({ ctx with consecutive := { ctx.consecutive with buffer := final } },
         .ok (.DataReceived final))
      else
        ({ ctx with consecutive := { ctx.consecutive with buffer := buffer } },
         .ok .Wait)

/-! ## Session-engine pure parts (src/can/isotp/synchronous.rs) -/

namespace IsoTpState

/-- `IsoTpState::Idle` bit pattern (src/lib.rs). -/
def Idle : Nat := 0x00

/-- `IsoTpState::WaitFlowCtrl` bit pattern. -/
def WaitFlowCtrl : Nat := 0x04

/-- `IsoTpState::WaitBusy` bit pattern. -/
def WaitBusy : Nat := 0x10

/-- `IsoTpState::Sending` bit pattern. -/
def Sending : Nat := 0x40

/-- `IsoTpState::Error` bit pattern. -/
def Error : Nat := 0x80

end IsoTpState

/-- `SyncCanIsoTp::state_contains`: `*v & flags != IsoTpState::Idle`. -/
def state_contains (v flags : Nat) : Bool :=
  Nat.land v flags != IsoTpState.Idle

/-- `SyncCanIsoTp::state_append` from src/can/isotp/synchronous.rs: an `Idle`
argument overwrites the state with `Idle`, an argument containing `Error`
overwrites with exactly `Error`, anything else is or-ed in.
`flags.contains(IsoTpState::Error)` is `flags & Error == Error`. -/
def state_append (v flags : Nat) : Nat :=
  if flags = IsoTpState.Idle then IsoTpState.Idle
  else if Nat.land flags IsoTpState.Error = IsoTpState.Error then IsoTpState.Error
  else Nat.lor v flags

/-- One decision of the spin loop in `SyncCanIsoTp::write_waiting`. -/
inductive SpinStep where
  | fail (e : Error)
  | continueWaiting
  | proceed
deriving DecidableEq

/-- The spin loop body of `SyncCanIsoTp::write_waiting`
(src/can/isotp/synchronous.rs, lines 190-214) as a function of the state
bitset and of `start.elapsed()` expressed in milliseconds: the source
compares the elapsed time against `Duration::from_millis(c)` for
`c = TIMEOUT_AS_ISO15765_2`, `P2_STAR_ISO14229`, `TIMEOUT_CR_ISO15765_2`
and returns `Error::Timeout { value: c, unit: "ms" }` when exceeded. -/
def write_waiting_step (state elapsed_ms : Nat) : SpinStep :=
  if state_contains state IsoTpState.Error then .fail .DeviceError
  else if state_contains state IsoTpState.Sending then
    if TIMEOUT_AS_ISO15765_2 < elapsed_ms then
      .fail (.Timeout TIMEOUT_AS_ISO15765_2 "ms")
    else .continueWaiting
  else if state_contains state IsoTpState.WaitBusy then
    if P2_STAR_ISO14229 < elapsed_ms then
      .fail (.Timeout P2_STAR_ISO14229 "ms")
    else .continueWaiting
  else if state_contains state IsoTpState.WaitFlowCtrl then
    if TIMEOUT_CR_ISO15765_2 < elapsed_ms then
      .fail (.Timeout TIMEOUT_CR_ISO15765_2 "ms")
    else .continueWaiting
  else .proceed

/-- `Address` from src/can.rs. -/
structure Address where
  tx_id : Nat
  rx_id : Nat
  fid : Nat
deriving DecidableEq

/-- The segmentation-and-addressing path of `SyncCanIsoTp::write`
(src/can/isotp/synchronous.rs, lines 46-84): segment the payload with
`CanIsoTpFrame::from_data` and address every resulting frame with `fid` when
`functional` is requested, `tx_id` otherwise.  The link enqueue, the state
flags and the pacing gate perform I/O and are not modelled; `write` contains
no check of `functional` against the number of frames. -/
def write_frames (address : Address) (functional : Bool) (data : List Nat) :
    Except Error (Nat × List CanIsoTpFrame) :=
  match from_data16 data with
  | .error e => .error e
  | .ok frames =>
    let can_id := if functional then address.fid else address.tx_id
    .ok (can_id, frames)

/-! ## The reassembly driver used by the round-trip claim

Feeding the segmenter's output back into the reassembler, the way the
receive path of src/can/isotp/synchronous.rs does it: `update_consecutive`
for the `FirstFrame`, `append_consecutive` for each `ConsecutiveFrame` in
order, starting from a reset context; a lone `SingleFrame` delivers its data
directly (`on_single_frame`). -/

/-- Run `append_consecutive` over a list of consecutive frames; the result is
the delivered payload when the last frame completes the PDU. -/
def runConsecutives : IsoTpContext → List CanIsoTpFrame → Option (List Nat)
  | _, [] => none
  | ctx, .ConsecutiveFrame s d :: rest =>
    match ctx.append_consecutive s d with
    | (ctx', .ok .Wait) => runConsecutives ctx' rest
    | (_, .ok (.DataReceived bytes)) => if rest.isEmpty then some bytes else none
    | _ => none
  | _, _ => none

/-- The reassembly recipe applied to a frame list. -/
def reassemble : List CanIsoTpFrame → Option (List Nat)
  | [.SingleFrame d] => some d
  | .FirstFrame length d :: rest =>
    runConsecutives (IsoTpContext.update_consecutive {} length d) rest
  | _ => none

/-- The domain on which the codec round-trip `decode (encode F pad) = F`
holds (see the theorem for claim C2): single frames of 1-7 data bytes,
first frames with a full 6-byte body and a 12-bit nonzero length below
`0x800` (the escape threshold of `encode_first`), consecutive frames with a
4-bit sequence and a full 7-byte body, and flow-control frames whose
block-size byte decodes (via `data[1] & 0x7F`) back to the state code and
whose `st_min` is outside the reserved ranges. -/
def roundTripDomain : CanIsoTpFrame → Prop
  | .SingleFrame d => 1 ≤ d.length ∧ d.length ≤ SINGLE_FRAME_SIZE_2004
  | .FirstFrame length d =>
    d.length = FIRST_FRAME_SIZE_2004 ∧ 1 ≤ length ∧ length ≤ 0x7FF
  | .ConsecutiveFrame s d => s < 16 ∧ d.length = CONSECUTIVE_FRAME_SIZE
  | .FlowControlFrame c =>
    Nat.land c.block_size 0x7F = c.state.toNat ∧
    (c.st_min ≤ 0x7F ∨ (0xF1 ≤ c.st_min ∧ c.st_min ≤ 0xF9))

/-! ## Helper lemmas -/

theorem parseCFs_eq (sequence : Nat) (rest : List Nat) :
    parseCFs sequence rest =
      if rest.length ≤ CONSECUTIVE_FRAME_SIZE then
        [.ConsecutiveFrame sequence rest]
      else
        .ConsecutiveFrame sequence (rest.take CONSECUTIVE_FRAME_SIZE) ::
          parseCFs (if 0x0F ≤ sequence then 0 else sequence + 1)
            (rest.drop CONSECUTIVE_FRAME_SIZE) := by
  rw [parseCFs, dite_eq_ite]

theorem listResize_eq_self (l : List Nat) (pad : Nat) :
    listResize l l.length pad = l := by
  simp [listResize]

theorem listResize_of_le (l : List Nat) (n pad : Nat) (h : n ≤ l.length) :
    listResize l n pad = l.take n := by
  simp [listResize, Nat.sub_eq_zero_of_le h]

/-! ## Claim C9: `state_append` semantics -/

/-- C9: a `state_append` call whose flags contain `Error` leaves the state
bitset equal to exactly `Error`; a call with exactly `Idle` leaves it equal
to exactly `Idle`; any other call or-s the flags into the current state. -/
theorem state_append_spec (v flags : Nat) :
    (Nat.land flags IsoTpState.Error = IsoTpState.Error →
      state_append v flags = IsoTpState.Error) ∧
    (flags = IsoTpState.Idle → state_append v flags = IsoTpState.Idle) ∧
    (flags ≠ IsoTpState.Idle → Nat.land flags IsoTpState.Error ≠ IsoTpState.Error →
      state_append v flags = Nat.lor v flags) := by
  refine ⟨fun h => ?_, fun h => ?_, fun h1 h2 => ?_⟩
  · by_cases hf : flags = IsoTpState.Idle
    · subst hf
      simp [IsoTpState.Idle, IsoTpState.Error] at h
    · simp [state_append, hf, h]
  · simp [state_append, h]
  · simp [state_append, h1, h2]

/-- Witness for C9 at `v = WaitFlowCtrl`, `flags = Sending | Error`: the
result is exactly `Error`, the `WaitFlowCtrl` and `Sending` bits cleared. -/
theorem state_append_spec_witness :
    state_append IsoTpState.WaitFlowCtrl
      (Nat.lor IsoTpState.Sending IsoTpState.Error) = IsoTpState.Error :=
  (state_append_spec IsoTpState.WaitFlowCtrl
    (Nat.lor IsoTpState.Sending IsoTpState.Error)).1 (by decide)

/-! ## Claim C4: the `write_waiting` timeout -/

/-- C4 (code bug evidence): in the `Sending` state the spin loop of
`write_waiting` is still waiting at 1001 ms elapsed (the claim and the
constant's own doc comment put A_s at 1000 ms), and only fails after
1,000,000 ms, returning `Timeout { value: 1000000, unit: "ms" }` rather
than `Timeout { value: 1000, unit: "ms" }`. -/
theorem write_waiting_timeout_value :
    write_waiting_step IsoTpState.Sending 1001 = .continueWaiting ∧
    write_waiting_step IsoTpState.Sending 1000001 =
      .fail (.Timeout 1000000 "ms") ∧
    TIMEOUT_AS_ISO15765_2 = 1000000 :=
  ⟨rfl, rfl, rfl⟩

/-! ## Claim C10: errors of `append_consecutive` leave the buffer alone -/

/-- C10: whenever `append_consecutive` returns an error, the accumulated
buffer and the expected length are unchanged; on `InvalidSequence` the
stored sequence has already advanced to the expected value. -/
theorem append_consecutive_error_preserves (ctx : IsoTpContext) (s : Nat)
    (d : List Nat) (ctx' : IsoTpContext) (e : Error)
    (h : ctx.append_consecutive s d = (ctx', .error e)) :
    ctx'.consecutive.buffer = ctx.consecutive.buffer ∧
    ctx'.consecutive.length = ctx.consecutive.length ∧
    ∀ exp act, e = .InvalidSequence exp act →
      ctx'.consecutive.sequence = some exp ∧
      exp = nextSequence ctx.consecutive.sequence ∧ act = s := by
  unfold IsoTpContext.append_consecutive at h
  cases hl : ctx.consecutive.length with
  | none =>
    rw [hl] at h
    simp only [Prod.mk.injEq] at h
    obtain ⟨rfl, h2⟩ := h
    refine ⟨rfl, hl, ?_⟩
    intro exp act hx
    injection h2 with h2
    rw [← h2] at hx
    cases hx
  | some target_len =>
    rw [hl] at h
    by_cases hs : s = nextSequence ctx.consecutive.sequence
    · simp only [hs, ne_eq, not_true_eq_false, if_false] at h
      split at h <;> simp at h
    · simp only [ne_eq, hs, not_false_iff, if_true] at h
      simp only [Prod.mk.injEq] at h
      obtain ⟨h1, h2⟩ := h
      subst h1
      injection h2 with h2
      refine ⟨rfl, hl, ?_⟩
      intro exp act hx
      rw [← h2] at hx
      injection hx with hx1 hx2
      subst hx1
      subst hx2
      exact ⟨rfl, rfl, rfl⟩

/-- Witness for C10: a context expecting sequence 2 fed sequence 5 reports
`InvalidSequence 2 5`, keeps buffer `[9]` and length `20`, and has advanced
its stored sequence to 2. -/
theorem append_consecutive_error_preserves_witness :
    (⟨some 2, some 20, [9]⟩ : Consecutive).buffer = [9] ∧
    (⟨some 2, some 20, [9]⟩ : Consecutive).length = some 20 ∧
    ∀ exp act, (Error.InvalidSequence 2 5) = .InvalidSequence exp act →
      (⟨some 2, some 20, [9]⟩ : Consecutive).sequence = some exp ∧
      exp = nextSequence (some 1) ∧ act = 5 :=
  append_consecutive_error_preserves ⟨none, ⟨some 1, some 20, [9]⟩⟩ 5 []
    ⟨none, ⟨some 2, some 20, [9]⟩⟩ (.InvalidSequence 2 5) rfl

/-! ## Claim C5: completion truncates but does not reset -/

/-- C5 counterexample: a context expecting 2 bytes holding `[1]` fed a
matching consecutive frame `[2, 3]` completes with exactly the 2 expected
bytes, but the internal buffer afterwards still holds those bytes (and the
expected length and sequence are still set): nothing is reset. -/
theorem append_consecutive_no_reset :
    IsoTpContext.append_consecutive ⟨none, ⟨none, some 2, [1]⟩⟩ 1 [2, 3] =
      (⟨none, ⟨some 1, some 2, [1, 2]⟩⟩, .ok (.DataReceived [1, 2])) ∧
    ([1, 2] : List Nat) ≠ [] ∧ (some 2 : Option Nat) ≠ none := by
  refine ⟨rfl, by decide, by decide⟩

/-- C5 as amended: when an accepted consecutive frame makes the buffer reach
or exceed `expected_length`, `append_consecutive` returns `DataReceived`
carrying exactly `expected_length` bytes (surplus truncated); the context is
*not* reset — it keeps the truncated buffer and the expected length (a reset
only happens via `IsoTpContext::reset` on the next `write`). -/
theorem append_consecutive_complete_truncates (ctx : IsoTpContext)
    (L s : Nat) (d : List Nat) (ctx' : IsoTpContext) (ev : IsoTpEvent)
    (hL : ctx.consecutive.length = some L)
    (hfull : L ≤ ctx.consecutive.buffer.length + d.length)
    (h : ctx.append_consecutive s d = (ctx', .ok ev)) :
    ev = .DataReceived ((ctx.consecutive.buffer ++ d).take L) ∧
    ((ctx.consecutive.buffer ++ d).take L).length = L ∧
    ctx'.consecutive.buffer = (ctx.consecutive.buffer ++ d).take L ∧
    ctx'.consecutive.length = some L := by
  unfold IsoTpContext.append_consecutive at h
  rw [hL] at h
  by_cases hs : s = nextSequence ctx.consecutive.sequence
  · simp only [hs, ne_eq, not_true_eq_false, if_false] at h
    have hlen : L ≤ (ctx.consecutive.buffer ++ d).length := by
      simpa [List.length_append] using hfull
    rw [if_pos hlen] at h
    simp only [Prod.mk.injEq] at h
    obtain ⟨h1, h2⟩ := h
    subst h1
    injection h2 with h2
    have hres : listResize (ctx.consecutive.buffer ++ d) L 0 =
        (ctx.consecutive.buffer ++ d).take L := listResize_of_le _ _ _ hlen
    refine ⟨?_, ?_, ?_, hL⟩
    · rw [← h2, hres]
    · simp [List.length_take]
      omega
    · exact hres
  · simp only [ne_eq, hs, not_false_iff, if_true] at h
    simp at h

/-- Witness for C5's amended theorem at the same concrete input as the
counterexample. -/
theorem append_consecutive_complete_truncates_witness :
    IsoTpEvent.DataReceived [1, 2] =
      .DataReceived ((([1] : List Nat) ++ [2, 3]).take 2) ∧
    ((([1] : List Nat) ++ [2, 3]).take 2).length = 2 ∧
    (⟨some 1, some 2, [1, 2]⟩ : Consecutive).buffer =
      (([1] : List Nat) ++ [2, 3]).take 2 ∧
    (⟨some 1, some 2, [1, 2]⟩ : Consecutive).length = some 2 :=
  append_consecutive_complete_truncates ⟨none, ⟨none, some 2, [1]⟩⟩ 2 1 [2, 3]
    ⟨none, ⟨some 1, some 2, [1, 2]⟩⟩ (.DataReceived [1, 2]) rfl (by decide) rfl

/-! ## Claim C8: the st_min byte to pacing microseconds -/

/-- C8: for a received flow-control frame (whose context is built by
`FlowControlContext::new`), the pacing value in microseconds is 10 ms for
`0x00`, `st_min` ms for `0x01..=0x7F`, `(st_min & 0x0F) * 100` µs for
`0xF1..=0xF9`, and 127 ms for every reserved byte (normalized by `new`). -/
theorem st_min_us_mapping : ∀ st : Nat, st < 256 →
    ∀ state : FlowControlState, ∀ bs : Nat,
    (FlowControlContext.new state bs st).st_min_us =
      some (if st = 0 then 10 * 1000
            else if st ≤ 0x7F then st * 1000
            else if 0xF1 ≤ st ∧ st ≤ 0xF9 then Nat.land st 0x0F * 100
            else 127 * 1000) := by
  intro st hst state bs
  unfold FlowControlContext.new FlowControlContext.st_min_us
  split
  · next hres =>
    simp only [MAX_ST_MIN]
    norm_num
    split_ifs <;> omega
  · next hres =>
    split_ifs <;> simp_all <;> omega

/-- Witness for C8 at the reserved byte `0x85` (and `state = Wait`,
`block_size = 4`): the pacing value is the 127 ms fallback. -/
theorem st_min_us_mapping_witness :
    (FlowControlContext.new .Wait 4 0x85).st_min_us = some 127000 := by
  have h := st_min_us_mapping 0x85 (by decide) .Wait 4
  simpa using h

/-! ## Claim C3: flow-control decoding -/

/-- C3 counterexample: the buffer `[0x31, 0x00, 0x00]` has state nibble 1
(`Wait`) in byte0, yet `decode` returns `Continues`, because the source
derives the state from `data[1] & 0x7F`, not from byte0's low nibble. -/
theorem decode_flow_control_state_counterexample :
    CanIsoTpFrame.decode [0x31, 0x00, 0x00] =
      .ok (.FlowControlFrame ⟨.Continues, 0, 0⟩) ∧
    FlowControlState.Continues ≠ .Wait ∧
    Nat.land 0x31 0x0F = 1 := by
  exact ⟨rfl, by decide, by decide⟩

/-- C3 as amended: for a buffer of length ≥ 3 whose byte0 high nibble is
`0x3`, `decode` reads the state from byte1 masked against `0x7F` (byte0's
low nibble is ignored): if that masked value is a valid `FlowControlState`
code, the frame has that state, `block_size` = byte1, and `st_min` = byte2
normalized by `FlowControlContext::new` (reserved bytes become `0x7F`);
otherwise `decode` fails with that `InvalidParam` error. -/
theorem decode_flow_control_reads_byte1 (b0 b1 b2 : Nat) (rest : List Nat)
    (hb0 : Nat.land b0 0xF0 = 0x30) :
    (∀ st, FlowControlState.tryFrom (Nat.land b1 0x7F) = .ok st →
      CanIsoTpFrame.decode (b0 :: b1 :: b2 :: rest) =
        .ok (.FlowControlFrame (FlowControlContext.new st b1 b2))) ∧
    (∀ e, FlowControlState.tryFrom (Nat.land b1 0x7F) = .error e →
      CanIsoTpFrame.decode (b0 :: b1 :: b2 :: rest) = .error e) := by
  constructor <;> intro x hx <;>
  · simp only [CanIsoTpFrame.decode, List.length_cons, List.getD_cons_zero,
      List.getD_cons_succ, hb0, hx]
    rw [if_neg (by omega), if_neg (by omega)]
    norm_num

/-- Witness for C3's amended theorem at the spec's own S4 vector
`[0x30, 0x80, 0x01, 0x55 × 5]`: byte1 `0x80` masks to `Continues`,
`block_size` is `0x80` and `st_min` is `0x01`. -/
theorem decode_flow_control_reads_byte1_witness :
    CanIsoTpFrame.decode [0x30, 0x80, 0x01, 0x55, 0x55, 0x55, 0x55, 0x55] =
      .ok (.FlowControlFrame (FlowControlContext.new .Continues 0x80 0x01)) :=
  (decode_flow_control_reads_byte1 0x30 0x80 0x01 [0x55, 0x55, 0x55, 0x55, 0x55]
    (by decide)).1 .Continues rfl

/-! ## Claim C1: segment/reassemble round trip -/

theorem append_consecutive_wait_eq (ctx : IsoTpContext) (L s : Nat)
    (d : List Nat) (hL : ctx.consecutive.length = some L)
    (hs : s = nextSequence ctx.consecutive.sequence)
    (hlt : ctx.consecutive.buffer.length + d.length < L) :
    ctx.append_consecutive s d =
      ({ ctx with consecutive := ⟨some s, some L, ctx.consecutive.buffer ++ d⟩ },
       .ok .Wait) := by
  simp only [IsoTpContext.append_consecutive, hL]
  rw [if_neg (not_ne_iff.mpr hs)]
  rw [if_neg (by simp only [List.length_append]; omega)]
  rw [hs]

theorem append_consecutive_complete_eq (ctx : IsoTpContext) (L s : Nat)
    (d : List Nat) (hL : ctx.consecutive.length = some L)
    (hs : s = nextSequence ctx.consecutive.sequence)
    (hge : L ≤ ctx.consecutive.buffer.length + d.length) :
    ctx.append_consecutive s d =
      ({ ctx with consecutive :=
          ⟨some s, some L, listResize (ctx.consecutive.buffer ++ d) L 0⟩ },
       .ok (.DataReceived (listResize (ctx.consecutive.buffer ++ d) L 0))) := by
  simp only [IsoTpContext.append_consecutive, hL]
  rw [if_neg (not_ne_iff.mpr hs)]
  rw [if_pos (by simp only [List.length_append]; omega)]
  rw [hs]

theorem runConsecutives_complete :
    ∀ (n : Nat) (rest : List Nat) (ctx : IsoTpContext) (L seq : Nat),
      rest.length ≤ n → rest ≠ [] →
      ctx.consecutive.length = some L →
      ctx.consecutive.buffer.length + rest.length = L →
      seq = nextSequence ctx.consecutive.sequence →
      runConsecutives ctx (parseCFs seq rest) =
        some (ctx.consecutive.buffer ++ rest) := by
  intro n
  induction n with
  | zero =>
    intro rest ctx L seq hn hne _ _ _
    cases rest with
    | nil => exact absurd rfl hne
    | cons a t => simp at hn
  | succ n ih =>
    intro rest ctx L seq hn hne hL hsum hseq
    rw [parseCFs_eq]
    by_cases h7 : rest.length ≤ CONSECUTIVE_FRAME_SIZE
    · rw [if_pos h7]
      have hge : L ≤ ctx.consecutive.buffer.length + rest.length :=
        le_of_eq hsum.symm
      simp only [runConsecutives,
        append_consecutive_complete_eq ctx L seq rest hL hseq hge]
      have hfull : (ctx.consecutive.buffer ++ rest).length = L := by
        simp only [List.length_append]; omega
      rw [← hfull, listResize_eq_self]
      simp
    · rw [if_neg h7]
      have h7n : CONSECUTIVE_FRAME_SIZE = 7 := rfl
      rw [h7n] at h7
      have htk : (rest.take CONSECUTIVE_FRAME_SIZE).length =
          CONSECUTIVE_FRAME_SIZE := by
        simp only [List.length_take, h7n]; omega
      have hlt : ctx.consecutive.buffer.length +
          (rest.take CONSECUTIVE_FRAME_SIZE).length < L := by
        rw [htk, h7n]; omega
      simp only [runConsecutives,
        append_consecutive_wait_eq ctx L seq (rest.take CONSECUTIVE_FRAME_SIZE)
          hL hseq hlt]
      have ihres := ih (rest.drop CONSECUTIVE_FRAME_SIZE)
        ({ ctx with consecutive :=
            ⟨some seq, some L,
             ctx.consecutive.buffer ++ rest.take CONSECUTIVE_FRAME_SIZE⟩ })
        L (if 0x0F ≤ seq then 0 else seq + 1)
        (by simp only [List.length_drop, h7n]; omega)
        (by
          intro hnil
          have := congrArg List.length hnil
          simp only [List.length_drop, List.length_nil, h7n] at this
          omega)
        rfl
        (by
          show (ctx.consecutive.buffer ++ rest.take CONSECUTIVE_FRAME_SIZE).length +
            (rest.drop CONSECUTIVE_FRAME_SIZE).length = L
          simp only [List.length_append, List.length_drop, List.length_take, h7n]
          omega)
        (by simp only [nextSequence]; split_ifs <;> omega)
      rw [ihres]
      simp only [List.append_assoc, List.take_append_drop]

/-- Part of the reassembly of a multi-frame segmentation, shared by the 12-bit
and the 32-bit first-frame forms of `from_data`. -/
theorem reassemble_parse (ffs : Nat) (P : List Nat) (hlt : ffs < P.length) :
    reassemble (parse ffs 1 P P.length) = some P := by
  unfold parse
  simp only [reassemble]
  have hupd : (IsoTpContext.update_consecutive {} P.length (P.take ffs)).consecutive =
      ⟨none, some P.length, P.take ffs⟩ := by
    simp [IsoTpContext.update_consecutive]
  have := runConsecutives_complete P.length (P.drop ffs)
    (IsoTpContext.update_consecutive {} P.length (P.take ffs)) P.length 1
    (by simp only [List.length_drop]; omega)
    (by
      intro hnil
      have := congrArg List.length hnil
      simp only [List.length_drop, List.length_nil] at this
      omega)
    (by rw [hupd])
    (by rw [hupd]; simp only [List.length_take, List.length_drop]; omega)
    (by rw [hupd]; rfl)
  rw [this, hupd]
  simp only [List.take_append_drop]

/-- C1: for every payload `P` with `0 < |P| ≤ ISO_TP_MAX_LENGTH_2016`,
segmenting with `from_data` and reassembling (`update_consecutive` for the
first frame, `append_consecutive` for each consecutive frame in order,
starting from a reset context; a lone single frame delivers its data
directly) yields exactly the bytes of `P`. -/
theorem segment_reassemble_roundtrip (P : List Nat) (h0 : 0 < P.length)
    (hmax : P.length ≤ ISO_TP_MAX_LENGTH_2016) :
    ∃ frames, from_data16 P = .ok frames ∧ reassemble frames = some P := by
  unfold from_data16
  by_cases h1 : P.length ≤ SINGLE_FRAME_SIZE_2004
  · exact ⟨[.SingleFrame P], by rw [if_neg (by omega), if_pos h1], rfl⟩
  · by_cases h2 : P.length ≤ ISO_TP_MAX_LENGTH_2004
    · refine ⟨parse FIRST_FRAME_SIZE_2004 1 P P.length,
        by rw [if_neg (by omega), if_neg h1, if_pos h2], ?_⟩
      exact reassemble_parse FIRST_FRAME_SIZE_2004 P
        (by simp only [FIRST_FRAME_SIZE_2004, SINGLE_FRAME_SIZE_2004,
              CAN_FRAME_MAX_SIZE] at *; omega)
    · refine ⟨parse FIRST_FRAME_SIZE_2016 1 P P.length,
        by rw [if_neg (by omega), if_neg h1, if_neg h2, if_pos hmax], ?_⟩
      exact reassemble_parse FIRST_FRAME_SIZE_2016 P
        (by simp only [FIRST_FRAME_SIZE_2016, SINGLE_FRAME_SIZE_2004,
              CAN_FRAME_MAX_SIZE] at *; omega)

/-- Witness for C1 at the spec's S5 payload (15 bytes). -/
theorem segment_reassemble_roundtrip_witness :
    ∃ frames,
      from_data16 [0x62, 0xf1, 0x87, 0x44, 0x56, 0x43, 0x37, 0x45, 0x32,
        0x30, 0x30, 0x30, 0x30, 0x30, 0x37] = .ok frames ∧
      reassemble frames =
        some [0x62, 0xf1, 0x87, 0x44, 0x56, 0x43, 0x37, 0x45, 0x32,
          0x30, 0x30, 0x30, 0x30, 0x30, 0x37] :=
  segment_reassemble_roundtrip _ (by simp) (by norm_num [ISO_TP_MAX_LENGTH_2016])

/-! ## Claim C7: shape of the 2004 segmentation -/

theorem parseCFs_length :
    ∀ (n : Nat) (rest : List Nat) (seq : Nat), rest.length ≤ n → rest ≠ [] →
      (parseCFs seq rest).length =
        (rest.length + (CONSECUTIVE_FRAME_SIZE - 1)) / CONSECUTIVE_FRAME_SIZE := by
  intro n
  induction n with
  | zero =>
    intro rest seq hn hne
    cases rest with
    | nil => exact absurd rfl hne
    | cons a t => simp at hn
  | succ n ih =>
    intro rest seq hn hne
    rw [parseCFs_eq]
    have h7n : CONSECUTIVE_FRAME_SIZE = 7 := rfl
    have hpos : 0 < rest.length := List.length_pos.mpr hne
    by_cases h7 : rest.length ≤ CONSECUTIVE_FRAME_SIZE
    · rw [if_pos h7]
      rw [h7n] at h7
      simp only [List.length_cons, List.length_nil, h7n]
      omega
    · rw [if_neg h7]
      rw [h7n] at h7
      simp only [List.length_cons]
      rw [ih (rest.drop CONSECUTIVE_FRAME_SIZE) _
        (by simp only [List.length_drop, h7n]; omega)
        (by
          intro hnil
          have := congrArg List.length hnil
          simp only [List.length_drop, List.length_nil, h7n] at this
          omega)]
      simp only [List.length_drop, h7n]
      omega

theorem parseCFs_get? :
    ∀ (n : Nat) (rest : List Nat) (seq : Nat), rest.length ≤ n → seq < 16 →
      ∀ i : Nat, i < (parseCFs seq rest).length →
        ∃ d, (parseCFs seq rest)[i]? =
          some (.ConsecutiveFrame ((seq + i) % 16) d) := by
  intro n
  induction n with
  | zero =>
    intro rest seq hn hseq i hi
    have hrest : rest = [] := List.length_eq_zero.mp (Nat.le_zero.mp hn)
    subst hrest
    rw [parseCFs_eq, if_pos (by simp [CONSECUTIVE_FRAME_SIZE])] at hi ⊢
    simp only [List.length_cons, List.length_nil, Nat.lt_succ_iff,
      Nat.le_zero] at hi
    subst hi
    exact ⟨[], by simp [Nat.mod_eq_of_lt hseq]⟩
  | succ n ih =>
    intro rest seq hn hseq i hi
    rw [parseCFs_eq] at hi ⊢
    by_cases h7 : rest.length ≤ CONSECUTIVE_FRAME_SIZE
    · rw [if_pos h7] at hi ⊢
      simp only [List.length_cons, List.length_nil, Nat.lt_succ_iff,
        Nat.le_zero] at hi
      subst hi
      exact ⟨rest, by simp [Nat.mod_eq_of_lt hseq]⟩
    · rw [if_neg h7] at hi ⊢
      have h7n : CONSECUTIVE_FRAME_SIZE = 7 := rfl
      cases i with
      | zero =>
        exact ⟨rest.take CONSECUTIVE_FRAME_SIZE,
          by simp [Nat.mod_eq_of_lt hseq]⟩
      | succ j =>
        have hj : j < (parseCFs (if 0x0F ≤ seq then 0 else seq + 1)
            (rest.drop CONSECUTIVE_FRAME_SIZE)).length := by
          simpa [Nat.succ_lt_succ_iff] using hi
        have hseq2 : (if 0x0F ≤ seq then 0 else seq + 1) < 16 := by
          split_ifs <;> omega
        obtain ⟨d, hd⟩ := ih (rest.drop CONSECUTIVE_FRAME_SIZE)
          (if 0x0F ≤ seq then 0 else seq + 1)
          (by simp only [List.length_drop, h7n]; rw [h7n] at h7; omega)
          hseq2 j hj
        refine ⟨d, ?_⟩
        rw [List.getElem?_cons_succ, hd]
        congr 2
        split_ifs with hwrap
        · have : seq = 15 := by omega
          subst this
          omega
        · omega

/-- C7: for a payload accepted by the 2004 segmenter, `from_data` yields
exactly one `SingleFrame` when `|P| ≤ SF_CAPACITY` (7 bytes), and otherwise
exactly one `FirstFrame` followed by `⌈(|P| − 6) / 7⌉` consecutive frames
whose sequence numbers, in order, are `1, 2, …, 15, 0, 1, 2, …`. -/
theorem from_data04_shape (P : List Nat) (h0 : 0 < P.length)
    (hmax : P.length ≤ ISO_TP_MAX_LENGTH_2004) :
    (P.length ≤ SINGLE_FRAME_SIZE_2004 → from_data04 P = .ok [.SingleFrame P]) ∧
    (SINGLE_FRAME_SIZE_2004 < P.length →
      ∃ cfs,
        from_data04 P =
          .ok (.FirstFrame P.length (P.take FIRST_FRAME_SIZE_2004) :: cfs) ∧
        cfs.length =
          ((P.length - FIRST_FRAME_SIZE_2004) + (CONSECUTIVE_FRAME_SIZE - 1)) /
            CONSECUTIVE_FRAME_SIZE ∧
        ∀ (i : Nat) (hi : i < cfs.length),
          ∃ d, cfs.get ⟨i, hi⟩ = .ConsecutiveFrame ((i + 1) % 16) d) := by
  have hsz : SINGLE_FRAME_SIZE_2004 = CONSECUTIVE_FRAME_SIZE := rfl
  constructor
  · intro h1
    unfold from_data04
    rw [if_neg (by omega), if_pos (hsz ▸ h1)]
  · intro h1
    rw [hsz] at h1
    refine ⟨parseCFs 1 (P.drop FIRST_FRAME_SIZE_2004), ?_, ?_, ?_⟩
    · unfold from_data04
      rw [if_neg (by omega), if_neg (by omega), if_pos hmax]
      rfl
    · have h1lit : 7 < P.length := h1
      rw [parseCFs_length P.length _ 1 (by simp only [List.length_drop]; omega)
        (by
          intro hnil
          have := congrArg List.length hnil
          simp only [List.length_drop, List.length_nil,
            FIRST_FRAME_SIZE_2004, CAN_FRAME_MAX_SIZE] at this
          omega)]
      simp only [List.length_drop]
    · intro i hi
      obtain ⟨d, hd⟩ := parseCFs_get? P.length (P.drop FIRST_FRAME_SIZE_2004) 1
        (by simp only [List.length_drop]; omega) (by omega) i hi
      refine ⟨d, ?_⟩
      rw [List.get_eq_getElem]
      have hg := List.getElem?_eq_getElem hi
      rw [hg] at hd
      rw [Nat.add_comm 1 i] at hd
      exact Option.some.inj hd

/-- Witness for C7 at a 15-byte payload: one first frame and
`⌈(15 − 6) / 7⌉ = 2` consecutive frames with sequences 1 and 2. -/
theorem from_data04_shape_witness :
    ((List.replicate 15 0x30 : List Nat).length ≤ SINGLE_FRAME_SIZE_2004 →
      from_data04 (List.replicate 15 0x30) =
        .ok [.SingleFrame (List.replicate 15 0x30)]) ∧
    (SINGLE_FRAME_SIZE_2004 < (List.replicate 15 0x30 : List Nat).length →
      ∃ cfs,
        from_data04 (List.replicate 15 0x30) =
          .ok (.FirstFrame (List.replicate 15 0x30 : List Nat).length
            ((List.replicate 15 0x30 : List Nat).take FIRST_FRAME_SIZE_2004) :: cfs) ∧
        cfs.length =
          (((List.replicate 15 0x30 : List Nat).length - FIRST_FRAME_SIZE_2004) +
            (CONSECUTIVE_FRAME_SIZE - 1)) / CONSECUTIVE_FRAME_SIZE ∧
        ∀ (i : Nat) (hi : i < cfs.length),
          ∃ d, cfs.get ⟨i, hi⟩ = .ConsecutiveFrame ((i + 1) % 16) d) :=
  from_data04_shape (List.replicate 15 0x30) (by simp)
    (by simp [ISO_TP_MAX_LENGTH_2004])

/-! ## Claim C6: functional addressing is not restricted -/

/-- C6 counterexample: a 15-byte payload (three frames) written with
`functional = true` does not fail with `InvalidParam`; `write` segments it
and addresses every frame to `fid`. -/
theorem functional_multiframe_not_rejected :
    write_frames ⟨0x7E0, 0x7E8, 0x7DF⟩ true
      [0x62, 0xf1, 0x87, 0x44, 0x56, 0x43, 0x37, 0x45, 0x32, 0x30, 0x30,
       0x30, 0x30, 0x30, 0x37] =
      .ok (0x7DF,
        [.FirstFrame 15 [0x62, 0xf1, 0x87, 0x44, 0x56, 0x43],
         .ConsecutiveFrame 1 [0x37, 0x45, 0x32, 0x30, 0x30, 0x30, 0x30],
         .ConsecutiveFrame 2 [0x30, 0x37]]) := by
  have h1 : parseCFs 2 [0x30, 0x37] = [.ConsecutiveFrame 2 [0x30, 0x37]] := by
    rw [parseCFs_eq, if_pos (by decide)]
  have h2 : parseCFs 1 [0x37, 0x45, 0x32, 0x30, 0x30, 0x30, 0x30, 0x30, 0x37] =
      [.ConsecutiveFrame 1 [0x37, 0x45, 0x32, 0x30, 0x30, 0x30, 0x30],
       .ConsecutiveFrame 2 [0x30, 0x37]] := by
    rw [parseCFs_eq, if_neg (by decide)]
    show CanIsoTpFrame.ConsecutiveFrame 1 [0x37, 0x45, 0x32, 0x30, 0x30, 0x30, 0x30] ::
      parseCFs 2 [0x30, 0x37] = _
    rw [h1]
  have h3 : from_data16 [0x62, 0xf1, 0x87, 0x44, 0x56, 0x43, 0x37, 0x45, 0x32,
      0x30, 0x30, 0x30, 0x30, 0x30, 0x37] =
      .ok [.FirstFrame 15 [0x62, 0xf1, 0x87, 0x44, 0x56, 0x43],
        .ConsecutiveFrame 1 [0x37, 0x45, 0x32, 0x30, 0x30, 0x30, 0x30],
        .ConsecutiveFrame 2 [0x30, 0x37]] := by
    unfold from_data16
    rw [if_neg (by decide), if_neg (by decide), if_pos (by decide)]
    show Except.ok (CanIsoTpFrame.FirstFrame 15 [0x62, 0xf1, 0x87, 0x44, 0x56, 0x43] ::
      parseCFs 1 [0x37, 0x45, 0x32, 0x30, 0x30, 0x30, 0x30, 0x30, 0x37]) = _
    rw [h2]
  unfold write_frames
  rw [h3]
  rfl

theorem parseCFs_length_pos (seq : Nat) (rest : List Nat) :
    0 < (parseCFs seq rest).length := by
  rw [parseCFs_eq]
  split <;> simp

/-- C6 as amended: `write` performs no functional-addressing check against
the frame count: with `functional = true` every payload in the segmenter's
domain is segmented and all frames (more than one for a multi-frame payload)
are addressed to `fid`; no `InvalidParam` error is produced. -/
theorem functional_write_not_invalid_param (address : Address) (data : List Nat)
    (h0 : 0 < data.length) (hmax : data.length ≤ ISO_TP_MAX_LENGTH_2016) :
    ∃ frames, write_frames address true data = .ok (address.fid, frames) ∧
      (SINGLE_FRAME_SIZE_2004 < data.length → 1 < frames.length) := by
  unfold write_frames from_data16
  by_cases h1 : data.length ≤ SINGLE_FRAME_SIZE_2004
  · refine ⟨[.SingleFrame data], ?_, by omega⟩
    rw [if_neg (by omega), if_pos h1]
    rfl
  · by_cases h2 : data.length ≤ ISO_TP_MAX_LENGTH_2004
    · refine ⟨parse FIRST_FRAME_SIZE_2004 1 data data.length, ?_, ?_⟩
      · rw [if_neg (by omega), if_neg h1, if_pos h2]
        rfl
      · intro _
        unfold parse
        have := parseCFs_length_pos 1 (data.drop FIRST_FRAME_SIZE_2004)
        simp only [List.length_cons]
        omega
    · refine ⟨parse FIRST_FRAME_SIZE_2016 1 data data.length, ?_, ?_⟩
      · rw [if_neg (by omega), if_neg h1, if_neg h2, if_pos hmax]
        rfl
      · intro _
        unfold parse
        have := parseCFs_length_pos 1 (data.drop FIRST_FRAME_SIZE_2016)
        simp only [List.length_cons]
        omega

/-- Witness for C6's amended theorem at a 15-byte payload. -/
theorem functional_write_not_invalid_param_witness :
    ∃ frames,
      write_frames ⟨0x7E0, 0x7E8, 0x7DF⟩ true (List.replicate 15 0x30) =
        .ok ((⟨0x7E0, 0x7E8, 0x7DF⟩ : Address).fid, frames) ∧
      (SINGLE_FRAME_SIZE_2004 < (List.replicate 15 0x30 : List Nat).length →
        1 < frames.length) :=
  functional_write_not_invalid_param ⟨0x7E0, 0x7E8, 0x7DF⟩
    (List.replicate 15 0x30) (by simp) (by simp [ISO_TP_MAX_LENGTH_2016])

/-! ## Claim C2: the codec round trip -/

theorem land_f0_of_lt16 : ∀ n < 16, Nat.land n 0xF0 = 0 := by decide

theorem land_0f_of_lt16 : ∀ n < 16, Nat.land n 0x0F = n := by decide

theorem consecutive_byte0 : ∀ s < 16, Nat.lor 0x20 s = 0x20 + s ∧
    Nat.land (0x20 + s) 0xF0 = 0x20 ∧ Nat.land (0x20 + s) 0x0F = s := by decide

theorem first_byte0 : ∀ h < 8, Nat.lor 0x10 h = 0x10 + h ∧
    Nat.land (0x10 + h) 0xF0 = 0x10 ∧ Nat.land (0x10 + h) 0x0F = h := by decide

set_option maxRecDepth 2048 in
theorem byte_pair_facts : ∀ h < 8, ∀ l < 256,
    Nat.land (h * 256 + l) 0x0F00 = h * 256 ∧
    Nat.land (h * 256 + l) 0x00FF = l ∧
    Nat.lor (Nat.shiftLeft h 8) l = h * 256 + l := by decide

theorem land_u32_of_lt (L : Nat) (hL : L < 2 ^ 32) :
    Nat.land L 0xFFFFFFFF = L := by
  have h := Nat.and_pow_two_sub_one_eq_mod L 32
  norm_num at h
  have h2 : Nat.land L 0xFFFFFFFF = L % 4294967296 := h
  rw [h2, Nat.mod_eq_of_lt (by omega)]

theorem first_len_facts (L : Nat) (hL : L < 2048) :
    Nat.land L 0xFFFFFFFF = L ∧
    Nat.shiftRight (Nat.land L 0x0F00) 8 = L / 256 ∧
    Nat.land L 0x00FF = L % 256 := by
  have h8 : L / 256 < 8 := by omega
  have h256 : L % 256 < 256 := by omega
  have hfacts := byte_pair_facts (L / 256) h8 (L % 256) h256
  have hsplit : L / 256 * 256 + L % 256 = L := by omega
  rw [hsplit] at hfacts
  refine ⟨land_u32_of_lt L (by omega), ?_, hfacts.2.1⟩
  rw [hfacts.1]
  show (L / 256 * 256) >>> 8 = L / 256
  rw [Nat.shiftRight_eq_div_pow]
  omega

theorem shift_lor_eq (h l : Nat) (hh : h < 8) (hl : l < 256) :
    Nat.lor (Nat.shiftLeft h 8) l = h * 256 + l :=
  (byte_pair_facts h hh l hl).2.2

theorem fc_byte0 : ∀ c < 3, Nat.lor 0x30 c = 0x30 + c ∧
    Nat.land (0x30 + c) 0xF0 = 0x30 := by decide

theorem decode_single_frame (b0 : Nat) (rest : List Nat)
    (hb : Nat.land b0 0xF0 = 0) (hlen : rest.length = 7)
    (hnib : 0 < Nat.land b0 0x0F) (hle : Nat.land b0 0x0F ≤ 7) :
    CanIsoTpFrame.decode (b0 :: rest) =
      .ok (.SingleFrame (rest.take (Nat.land b0 0x0F))) := by
  simp only [CanIsoTpFrame.decode, List.length_cons, hlen,
    List.getD_cons_zero, hb]
  norm_num
  simp only [decode_single, CAN_FRAME_MAX_SIZE, List.length_cons, hlen]
  rw [if_neg (by omega), if_pos hnib, if_neg (by omega)]
  rfl

theorem decode_first_frame (b0 b1 : Nat) (rest : List Nat)
    (hb : Nat.land b0 0xF0 = 0x10) (hlen : rest.length = 6)
    (hpdu : 0 < Nat.lor (Nat.shiftLeft (Nat.land b0 0x0F) 8) b1) :
    CanIsoTpFrame.decode (b0 :: b1 :: rest) =
      .ok (.FirstFrame (Nat.lor (Nat.shiftLeft (Nat.land b0 0x0F) 8) b1)
        rest) := by
  simp only [CanIsoTpFrame.decode, List.length_cons, hlen,
    List.getD_cons_zero, List.getD_cons_succ, hb]
  norm_num
  simp only [decode_first, CAN_FRAME_MAX_SIZE, List.length_cons, hlen,
    List.getD_cons_zero, List.getD_cons_succ]
  rw [if_neg (by omega), if_pos hpdu]
  rfl

theorem decode_consecutive_frame (b0 : Nat) (rest : List Nat)
    (hb : Nat.land b0 0xF0 = 0x20) (h2 : 2 ≤ rest.length) :
    CanIsoTpFrame.decode (b0 :: rest) =
      .ok (.ConsecutiveFrame (Nat.land b0 0x0F) rest) := by
  simp only [CanIsoTpFrame.decode, List.length_cons, List.getD_cons_zero, hb]
  rw [if_neg (by omega), if_neg (by omega)]
  norm_num

theorem decode_fc_ok (b0 b1 b2 : Nat) (rest : List Nat)
    (hb : Nat.land b0 0xF0 = 0x30) (st : FlowControlState)
    (hst : FlowControlState.tryFrom (Nat.land b1 0x7F) = .ok st) :
    CanIsoTpFrame.decode (b0 :: b1 :: b2 :: rest) =
      .ok (.FlowControlFrame (FlowControlContext.new st b1 b2)) := by
  simp only [CanIsoTpFrame.decode, List.length_cons, List.getD_cons_zero,
    List.getD_cons_succ, hb, hst]
  rw [if_neg (by omega), if_neg (by omega)]
  norm_num

/-- C2 counterexample: encoding `FlowControl { Wait, 0, 0 }` and decoding it
back yields `FlowControl { Continues, 0, 0 }`, because `decode` derives the
state from byte1 (the block-size byte) instead of byte0's low nibble, which
`encode` wrote it to. -/
theorem decode_encode_not_inverse :
    CanIsoTpFrame.decode
      ((CanIsoTpFrame.FlowControlFrame ⟨.Wait, 0, 0⟩).encode (some 0xAA)) =
      .ok (.FlowControlFrame ⟨.Continues, 0, 0⟩) ∧
    FlowControlContext.mk .Continues 0 0 ≠ ⟨.Wait, 0, 0⟩ :=
  ⟨rfl, by decide⟩

/-- C2 as amended: the round trip `decode (encode F pad) = F` holds exactly
on `roundTripDomain`: single frames of 1-7 bytes, first frames with 6 data
bytes and length `1..=0x7FF`, consecutive frames with a 4-bit sequence and 7
data bytes, and flow-control frames whose block-size byte masks back to the
state code with a non-reserved `st_min`; the padding byte is ignored by
`decode` on this domain. -/
theorem decode_encode_roundtrip (padding : Option Nat) (F : CanIsoTpFrame)
    (hdom : roundTripDomain F) :
    CanIsoTpFrame.decode (F.encode padding) = .ok F := by
  cases F with
  | SingleFrame d =>
    obtain ⟨hd1, hd7⟩ := hdom
    have hd7' : d.length ≤ 7 := hd7
    have hbytes : (CanIsoTpFrame.SingleFrame d).encode padding =
        d.length ::
          (d ++ List.replicate (7 - d.length) (padding.getD DEFAULT_PADDING)) := by
      simp only [CanIsoTpFrame.encode, encode_single]
      rw [if_pos hd7]
      have hz : Nat.lor 0 (d.length % 256) = d.length := by
        show 0 ||| (d.length % 256) = d.length
        rw [Nat.zero_or, Nat.mod_eq_of_lt (by omega)]
      rw [hz]
      unfold listResize
      simp only [List.length_cons, CAN_FRAME_MAX_SIZE]
      rw [List.take_of_length_le (by simp only [List.length_cons]; omega)]
      rw [List.cons_append]
      have h78 : 8 - (d.length + 1) = 7 - d.length := by omega
      rw [h78]
    rw [hbytes]
    have hrest : (d ++ List.replicate (7 - d.length)
        (padding.getD DEFAULT_PADDING)).length = 7 := by
      simp only [List.length_append, List.length_replicate]
      omega
    rw [decode_single_frame d.length _ (land_f0_of_lt16 d.length (by omega))
      hrest (by rw [land_0f_of_lt16 d.length (by omega)]; omega)
      (by rw [land_0f_of_lt16 d.length (by omega)]; omega)]
    rw [land_0f_of_lt16 d.length (by omega), List.take_left' rfl]
  | FirstFrame L d =>
    obtain ⟨hd6, hL1, hL7ff⟩ := hdom
    have hL2048 : L < 2048 := by
      have : L ≤ 0x7FF := hL7ff
      omega
    obtain ⟨hland32, hshr, hland255⟩ := first_len_facts L hL2048
    have hbytes : (CanIsoTpFrame.FirstFrame L d).encode padding =
        (0x10 + L / 256) :: (L % 256) :: d := by
      simp only [CanIsoTpFrame.encode, encode_first]
      rw [hland32, if_neg (by have : L ≤ 0x7FF := hL7ff; omega)]
      rw [hshr, hland255,
        (first_byte0 (L / 256) (by omega)).1]
    rw [hbytes]
    rw [decode_first_frame (0x10 + L / 256) (L % 256) d
      (first_byte0 (L / 256) (by omega)).2.1 hd6
      (by
        rw [(first_byte0 (L / 256) (by omega)).2.2,
          shift_lor_eq (L / 256) (L % 256) (by omega) (by omega)]
        omega)]
    rw [(first_byte0 (L / 256) (by omega)).2.2,
      shift_lor_eq (L / 256) (L % 256) (by omega) (by omega)]
    have : L / 256 * 256 + L % 256 = L := by omega
    rw [this]
  | ConsecutiveFrame s d =>
    obtain ⟨hs, hd7⟩ := hdom
    have hbytes : (CanIsoTpFrame.ConsecutiveFrame s d).encode padding =
        (0x20 + s) :: d := by
      simp only [CanIsoTpFrame.encode]
      rw [(consecutive_byte0 s hs).1]
      have hlen : ((0x20 + s) :: d).length = CAN_FRAME_MAX_SIZE := by
        simp only [List.length_cons, hd7, CONSECUTIVE_FRAME_SIZE,
          CAN_FRAME_MAX_SIZE]
      rw [← hlen, listResize_eq_self]
    rw [hbytes]
    rw [decode_consecutive_frame (0x20 + s) d (consecutive_byte0 s hs).2.1
      (by rw [hd7]; decide)]
    rw [(consecutive_byte0 s hs).2.2]
  | FlowControlFrame c =>
    obtain ⟨hbs, hst⟩ := hdom
    have hc3 : c.state.toNat < 3 := by cases c.state <;> simp [FlowControlState.toNat]
    have hbytes : (CanIsoTpFrame.FlowControlFrame c).encode padding =
        (0x30 + c.state.toNat) :: c.block_size :: c.st_min ::
          List.replicate 5 (padding.getD DEFAULT_PADDING) := by
      simp only [CanIsoTpFrame.encode]
      rw [(fc_byte0 c.state.toNat hc3).1]
      unfold listResize
      simp only [CAN_FRAME_MAX_SIZE]
      rw [List.take_of_length_le (by simp)]
      rfl
    rw [hbytes]
    have htry : FlowControlState.tryFrom (Nat.land c.block_size 0x7F) =
        .ok c.state := by
      rw [hbs]
      cases c.state <;> rfl
    rw [decode_fc_ok (0x30 + c.state.toNat) c.block_size c.st_min _
      (fc_byte0 c.state.toNat hc3).2 c.state htry]
    have hnew : FlowControlContext.new c.state c.block_size c.st_min = c := by
      unfold FlowControlContext.new
      rw [if_neg (by omega)]
    rw [hnew]

/-- Witness for C2's amended theorem at the repo's own single-frame test
vector (`SingleFrame [0x10, 0x01]`, padding 0). -/
theorem decode_encode_roundtrip_witness :
    CanIsoTpFrame.decode
      ((CanIsoTpFrame.SingleFrame [0x10, 0x01]).encode (some 0x00)) =
      .ok (.SingleFrame [0x10, 0x01]) :=
  decode_encode_roundtrip (some 0x00) (.SingleFrame [0x10, 0x01])
    (by constructor <;> decide)
